import Mathlib

/-!
Shallow embedding of `src/storage.rs`: a presence-masked, generation-checked
component storage (`Storage` facade over a `MaskedStorage`, which couples a
`BitSet` mask with one of three `UnprotectedStorage` backends:
`VecStorage`, `HashMapStorage`, `DummyStorage`).

Modelling conventions:
* `Index` is `Nat`; `Generation` is `Nat`.
* The external `BitSet` (presence set) is modelled as a `Finset Nat`
  (membership test, add, remove, clear — spec §6).
* The external `Allocator` is modelled from the spec: a generation table,
  a list of generations indexed by slot, with lookup defaulting to
  generation 1 (exactly as `has_gen` reads it in the source).
* Slots of the dense `VecStorage` whose memory is not (or no longer)
  constructed — slots exposed by `set_len` without being written, and slots
  whose payload was moved out by `ptr::read` in `remove` — are modelled as
  `none`; a constructed, live payload at a slot is `some v`.  An unchecked
  backend `get` therefore returns `Option T`, where `none` marks the
  undefined-behaviour case of reading a dead slot (never reachable through
  the safe facade).
-/

/-- Modelled from the spec (§3): an identifier is a pair of a slot index
and a generation tag; the `Entity` type itself lives outside `storage.rs`. -/
structure Entity where
  id : Nat
  gen : Nat
deriving DecidableEq, Repr

/-- Modelled from the spec (§3, §6): the external Allocator's generation
table, mapping slot index to the currently valid generation; only read by
this core (`alloc.generations.get(idx)` in `has_gen`). -/
structure Allocator where
  generations : List Nat

/-- `Storage::has_gen`: the identifier's generation must exactly match the
Allocator's current generation for its index, defaulting to generation 1
when the index was never recorded (`unwrap_or(&Generation(1))`). -/
def has_gen (a : Allocator) (e : Entity) : Bool :=
  e.gen == (a.generations.get? e.id).getD 1

/-- The `UnprotectedStorage` trait: raw, unchecked, index-keyed backend
operations.  `get` yields `none` exactly when the slot does not hold a
constructed value (reading it in the source would be undefined behaviour).
`set` models writing through the mutable reference returned by `get_mut`;
`remove` returns the updated state together with the extracted payload. -/
structure UnprotectedStorage (S : Type u) (T : Type v) where
  new : S
  clean : S → (Nat → Bool) → S
  get : S → Nat → Option T
  set : S → Nat → T → S
  insert : S → Nat → T → S
  remove : S → Nat → S × Option T

/-- `MaskedStorage<T>`: the presence mask (`BitSet`) coupled with the raw
backend; the two are kept in lock-step by the operations below. -/
structure MaskedStorage (S : Type u) (T : Type v) where
  mask : Finset Nat
  inner : S
deriving DecidableEq

variable {S : Type u} {T : Type v}

/-- `MaskedStorage::new`: empty mask, freshly constructed backend. -/
def MaskedStorage.new (ops : UnprotectedStorage S T) : MaskedStorage S T :=
  { mask := ∅, inner := ops.new }

/-- `MaskedStorage::clear`: run the backend's `clean` pass with the mask as
the presence predicate, then clear the mask. -/
def MaskedStorage.clear (ops : UnprotectedStorage S T) (s : MaskedStorage S T) :
    MaskedStorage S T :=
  { mask := ∅, inner := ops.clean s.inner (fun i => decide (i ∈ s.mask)) }

/-- `MaskedStorage::remove`: if the mask contains the index, remove it from
the mask and extract the payload from the backend slot; otherwise a no-op
returning `none`. -/
def MaskedStorage.remove (ops : UnprotectedStorage S T) (s : MaskedStorage S T)
    (id : Nat) : MaskedStorage S T × Option T :=
  if id ∈ s.mask then
    let r := ops.remove s.inner id
    ({ mask := s.mask.erase id, inner := r.1 }, r.2)
  else
    (s, none)

/-- `Storage::get`: the payload is returned only when the index is present
in the mask and the generation is currently valid. -/
def Storage.get (ops : UnprotectedStorage S T) (a : Allocator)
    (s : MaskedStorage S T) (e : Entity) : Option T :=
  if e.id ∈ s.mask ∧ has_gen a e then ops.get s.inner e.id else none

/-- `Storage::get_mut`: same guard as `get`; this is the value read through
the mutable reference. -/
def Storage.get_mut (ops : UnprotectedStorage S T) (a : Allocator)
    (s : MaskedStorage S T) (e : Entity) : Option T :=
  if e.id ∈ s.mask ∧ has_gen a e then ops.get s.inner e.id else none

/-- Writing through the mutable reference returned by `Storage::get_mut`:
when the guard passes the slot is overwritten, otherwise nothing happens
(no reference was handed out). -/
def Storage.write_mut (ops : UnprotectedStorage S T) (a : Allocator)
    (s : MaskedStorage S T) (e : Entity) (v : T) : MaskedStorage S T :=
  if e.id ∈ s.mask ∧ has_gen a e then
    { s with inner := ops.set s.inner e.id v }
  else s

/-- `Storage::insert`: a stale generation fails (`false`) without touching
anything; a valid generation either overwrites in place through `get_mut`
(index already present) or adds the index to the mask and constructs the
slot via the backend's `insert`. -/
def Storage.insert (ops : UnprotectedStorage S T) (a : Allocator)
    (s : MaskedStorage S T) (e : Entity) (v : T) : MaskedStorage S T × Bool :=
  if has_gen a e then
    if e.id ∈ s.mask then
      ({ s with inner := ops.set s.inner e.id v }, true)
    else
      ({ mask := Insert.insert e.id s.mask, inner := ops.insert s.inner e.id v }, true)
  else
    (s, false)

/-- `Storage::remove`: stale generation returns `none` untouched, otherwise
delegates to `MaskedStorage::remove`. -/
def Storage.remove (ops : UnprotectedStorage S T) (a : Allocator)
    (s : MaskedStorage S T) (e : Entity) : MaskedStorage S T × Option T :=
  if has_gen a e then MaskedStorage.remove ops s e.id else (s, none)

/-- `Storage::clear`: delegates unconditionally to `MaskedStorage::clear`. -/
def Storage.clear (ops : UnprotectedStorage S T) (s : MaskedStorage S T) :
    MaskedStorage S T :=
  MaskedStorage.clear ops s

/-! ## The three backends -/

/-- `VecStorage<T>`: a growable buffer whose slots may be unconstructed
(`none`): `set_len` exposes slots without writing them, and `remove` moves
the payload out by `ptr::read`, leaving the slot logically dead. -/
abbrev VecStorage (T : Type v) := List (Option T)

/-- The growth step of `VecStorage::insert`: when the target index is not
below the current length, extend the length to `id + 1`, the new slots
staying unconstructed. -/
def VecStorage.grow (s : VecStorage T) (n : Nat) : VecStorage T :=
  s ++ List.replicate (n - s.length) none

/-- The `UnprotectedStorage` impl for `VecStorage`: `clean` drains the
whole buffer (present slots are dropped normally, non-present ones are
`mem::forget`-discarded, and the buffer ends empty either way); `get` reads
the slot; `insert` grows then swaps the value in; `remove` reads the value
out, the slot becoming dead. -/
def vecOps (T : Type v) : UnprotectedStorage (VecStorage T) T where
  new := []
  clean := fun _ _ => []
  get := fun s i => (s[i]?).join
  set := fun s i v => List.set s i (some v)
  insert := fun s i v => List.set (VecStorage.grow s (i + 1)) i (some v)
  remove := fun s i => (List.set s i none, (s[i]?).join)

/-- `HashMapStorage<T>`: a hash table keyed by index, modelled as an
association list with unique keys. -/
abbrev HashMapStorage (T : Type v) := List (Nat × T)

/-- Map lookup. -/
def HashMapStorage.lookup (s : HashMapStorage T) (i : Nat) : Option T :=
  (List.find? (fun p => p.1 == i) s).map Prod.snd

/-- The `UnprotectedStorage` impl for `HashMapStorage`: standard map
semantics; `clean` is a no-op ("nothing to do" in the source). -/
def hashOps (T : Type v) : UnprotectedStorage (HashMapStorage T) T where
  new := []
  clean := fun s _ => s
  get := fun s i => HashMapStorage.lookup s i
  set := fun s i v => List.map (fun p => if p.1 == i then (i, v) else p) s
  insert := fun s i v => (i, v) :: List.filter (fun p => !(p.1 == i)) s
  remove := fun s i =>
    (List.filter (fun p => !(p.1 == i)) s, HashMapStorage.lookup s i)

/-- `DummyStorage<T>`: a single shared value standing for every index. -/
structure DummyStorage (T : Type v) where
  val : T
deriving DecidableEq

/-- The `UnprotectedStorage` impl for `DummyStorage`: `get`/`get_mut`
address the one shared cell whatever the index, `insert` and `clean` are
no-ops, `remove` returns a clone of the shared value. -/
def dummyOps (T : Type v) [Inhabited T] : UnprotectedStorage (DummyStorage T) T where
  new := ⟨default⟩
  clean := fun s _ => s
  get := fun s _ => some s.val
  set := fun _ _ v => ⟨v⟩
  insert := fun s _ _ => s
  remove := fun s _ => (s, some s.val)

/-! ## Facade operation sequences

An externally observable operation on a `Storage` facade, and a runner
recording the result each operation returns. -/

inductive Op (T : Type v) where
  | get (e : Entity)
  | insert (e : Entity) (v : T)
  | remove (e : Entity)
  | write_mut (e : Entity) (v : T)
  | clear

inductive OpResult (T : Type v) where
  | flag (b : Bool)
  | payload (o : Option T)
  | unit

/-- One facade operation, returning the new state and the result the
caller observes. -/
def Op.step (ops : UnprotectedStorage S T) (a : Allocator)
    (s : MaskedStorage S T) : Op T → MaskedStorage S T × OpResult T
  | .get e => (s, .payload (Storage.get ops a s e))
  | .insert e v =>
    let r := Storage.insert ops a s e v
    (r.1, .flag r.2)
  | .remove e =>
    let r := Storage.remove ops a s e
    (r.1, .payload r.2)
  | .write_mut e v => (Storage.write_mut ops a s e v, .unit)
  | .clear => (Storage.clear ops s, .unit)

/-- Run a sequence of facade operations, collecting the observed results. -/
def runOps (ops : UnprotectedStorage S T) (a : Allocator)
    (s : MaskedStorage S T) : List (Op T) → MaskedStorage S T × List (OpResult T)
  | [] => (s, [])
  | o :: rest =>
    let r := Op.step ops a s o
    let rr := runOps ops a r.1 rest
    (rr.1, r.2 :: rr.2)

/-! ## Bulk insert / remove scenarios (spec §8) -/

/-- Modelled from the spec: a fresh Allocator has recorded no generations,
so every index defaults to generation 1. -/
def Allocator.new : Allocator := ⟨[]⟩

/-- Insert a batch of (fresh index, generation 1) identifiers with their
payloads, left to right. -/
def insertAll (ops : UnprotectedStorage S T) (a : Allocator)
    (s : MaskedStorage S T) : List (Nat × T) → MaskedStorage S T
  | [] => s
  | p :: rest => insertAll ops a (Storage.insert ops a s ⟨p.1, 1⟩ p.2).1 rest

/-- Remove a batch of (index, generation 1) identifiers, left to right,
collecting what each `remove` returns. -/
def removeAll (ops : UnprotectedStorage S T) (a : Allocator)
    (s : MaskedStorage S T) : List Nat → MaskedStorage S T × List (Option T)
  | [] => (s, [])
  | i :: rest =>
    let r := Storage.remove ops a s ⟨i, 1⟩
    let rr := removeAll ops a r.1 rest
    (rr.1, r.2 :: rr.2)

/-- Abstract mirror of `insertAll`. -/
def absInsertAll (m : Nat → Option T) : List (Nat × T) → (Nat → Option T)
  | [] => m
  | p :: rest => absInsertAll (Function.update m p.1 (some p.2)) rest

/-- Abstract mirror of `removeAll`. -/
def absRemoveAll (m : Nat → Option T) : List Nat → (Nat → Option T) × List (Option T)
  | [] => (m, [])
  | i :: rest =>
    let rr := absRemoveAll (Function.update m i none) rest
    (rr.1, m i :: rr.2)

/-! ## Backend laws

The facts about a raw backend that the facade-level proofs need; both the
dense (`vecOps`) and the sparse (`hashOps`) backend satisfy them.  The
`get_set_self` law carries the liveness precondition under which the
facade ever calls `set` (writing through `get_mut` of a present slot). -/

structure StorageLaws (ops : UnprotectedStorage S T) : Prop where
  get_new : ∀ i, ops.get ops.new i = none
  get_insert_self : ∀ s i v, ops.get (ops.insert s i v) i = some v
  get_insert_other : ∀ s i j v, j ≠ i → ops.get (ops.insert s i v) j = ops.get s j
  get_set_self : ∀ s i v, (ops.get s i).isSome → ops.get (ops.set s i v) i = some v
  get_set_other : ∀ s i j v, j ≠ i → ops.get (ops.set s i v) j = ops.get s j
  remove_val : ∀ s i, (ops.remove s i).2 = ops.get s i
  get_remove_other : ∀ s i j, j ≠ i → ops.get (ops.remove s i).1 j = ops.get s j

/-! ## Simulation against an abstract partial map

The abstract model of one masked, generation-checked store is a partial
map from indices to payloads; an index is present exactly when the map is
`some` there.  Both law-abiding backends are simulated by it, which gives
the round-trip, removal, and backend-equivalence properties in one go. -/

/-- The simulation relation: the mask is the domain of the abstract map,
and on the mask the backend slot holds exactly the abstract payload. -/
def Abs (ops : UnprotectedStorage S T) (s : MaskedStorage S T)
    (m : Nat → Option T) : Prop :=
  ∀ i, (i ∈ s.mask ↔ (m i).isSome) ∧ (i ∈ s.mask → ops.get s.inner i = m i)

/-- The dense backend's dead-slot discipline: outside the mask, the
`VecStorage` slot holds no constructed value.  Together with `Abs` this
gives the full presence-set ⇔ live-slot equivalence for the dense
backend. -/
def VecDead (s : MaskedStorage (VecStorage T) T) : Prop :=
  ∀ i, i ∉ s.mask → (vecOps T).get s.inner i = none

/-- One abstract step mirroring `Op.step` on the partial-map model. -/
def absStep (a : Allocator) (m : Nat → Option T) :
    Op T → (Nat → Option T) × OpResult T
  | .get e => (m, .payload (if has_gen a e then m e.id else none))
  | .insert e v =>
    if has_gen a e then (Function.update m e.id (some v), .flag true)
    else (m, .flag false)
  | .remove e =>
    if has_gen a e then
      (Function.update m e.id none, .payload (if (m e.id).isSome then m e.id else none))
    else (m, .payload none)
  | .write_mut e v =>
    (if (m e.id).isSome ∧ has_gen a e then Function.update m e.id (some v) else m,
      .unit)
  | .clear => (fun _ => none, .unit)

/-- The abstract runner mirroring `runOps`. -/
def absRun (a : Allocator) (m : Nat → Option T) :
    List (Op T) → (Nat → Option T) × List (OpResult T)
  | [] => (m, [])
  | o :: rest =>
    let r := absStep a m o
    let rr := absRun a r.1 rest
    (rr.1, r.2 :: rr.2)

/-- The §8 round-trip scenario: insert a batch of fresh (index, gen 1)
identifiers into a fresh store under a fresh Allocator. -/
def runInserts (ops : UnprotectedStorage S T) (l : List (Nat × T)) :
    MaskedStorage S T :=
  insertAll ops Allocator.new (MaskedStorage.new ops) l

/-- The §8 removal scenario: after `runInserts`, remove every inserted
identifier once, collecting what each remove returns. -/
def runRemovals (ops : UnprotectedStorage S T) (l : List (Nat × T)) :
    MaskedStorage S T × List (Option T) :=
  removeAll ops Allocator.new (runInserts ops l) (l.map Prod.fst)

/-! ## Lemmas -/

/-! ### The dense backend satisfies the laws -/

lemma vec_length_grow (s : VecStorage T) (n : Nat) :
    (VecStorage.grow s n).length = max s.length n := by
  simp only [VecStorage.grow, List.length_append, List.length_replicate]
  omega

lemma vec_get_replicate_join (k m : Nat) :
    ((List.replicate k (none : Option T))[m]?).join = none := by
  cases h : (List.replicate k (none : Option T))[m]? with
  | none => rfl
  | some a =>
    have ha : a ∈ List.replicate k (none : Option T) := List.getElem?_mem h
    rw [List.eq_of_mem_replicate ha]
    rfl

lemma vec_get_grow (s : VecStorage T) (n j : Nat) :
    (((VecStorage.grow s n))[j]?).join = (s[j]?).join := by
  unfold VecStorage.grow
  by_cases hj : j < s.length
  · rw [List.getElem?_append_left hj]
  · rw [List.getElem?_append_right (Nat.le_of_not_lt hj)]
    rw [List.getElem?_eq_none (Nat.le_of_not_lt hj)]
    exact vec_get_replicate_join _ _

lemma vecLaws (T : Type v) : StorageLaws (vecOps T) where
  get_new := fun i => by simp [vecOps]
  get_insert_self := fun s i v => by
    have hlen : i < (VecStorage.grow s (i + 1)).length := by
      rw [vec_length_grow]; omega
    simp only [vecOps]
    rw [List.getElem?_set_self hlen]
    rfl
  get_insert_other := fun s i j v hne => by
    simp only [vecOps]
    rw [List.getElem?_set_ne (Ne.symm hne)]
    exact vec_get_grow s (i + 1) j
  get_set_self := fun s i v hs => by
    simp only [vecOps] at hs ⊢
    have hlen : i < s.length := by
      by_contra hge
      rw [List.getElem?_eq_none (Nat.le_of_not_lt hge)] at hs
      simp at hs
    rw [List.getElem?_set_self hlen]
    rfl
  get_set_other := fun s i j v hne => by
    simp only [vecOps]
    rw [List.getElem?_set_ne (Ne.symm hne)]
  remove_val := fun s i => rfl
  get_remove_other := fun s i j hne => by
    simp only [vecOps]
    rw [List.getElem?_set_ne (Ne.symm hne)]

/-- Removing a slot from the dense backend leaves the slot dead. -/
lemma vec_get_remove_self (s : VecStorage T) (i : Nat) :
    (vecOps T).get ((vecOps T).remove s i).1 i = none := by
  simp only [vecOps]
  by_cases hlen : i < s.length
  · rw [List.getElem?_set_self hlen]; rfl
  · rw [List.getElem?_eq_none (by simpa using Nat.le_of_not_lt hlen)]
    rfl

/-- `VecStorage::clean` drains the buffer: afterwards every slot is dead. -/
lemma vec_get_clean (s : VecStorage T) (f : Nat → Bool) (i : Nat) :
    (vecOps T).get ((vecOps T).clean s f) i = none := by
  simp [vecOps]

/-! ### The sparse backend satisfies the laws -/

lemma hash_lookup_cons (p : Nat × T) (rest : HashMapStorage T) (j : Nat) :
    HashMapStorage.lookup (p :: rest) j =
      if p.1 = j then some p.2 else HashMapStorage.lookup rest j := by
  by_cases h : p.1 = j
  · simp [HashMapStorage.lookup, List.find?_cons_of_pos, h]
  · simp [HashMapStorage.lookup, List.find?_cons_of_neg, h]

lemma hash_lookup_filter (s : HashMapStorage T) (i j : Nat) (hne : j ≠ i) :
    HashMapStorage.lookup (List.filter (fun p => !(p.1 == i)) s) j =
      HashMapStorage.lookup s j := by
  induction s with
  | nil => rfl
  | cons p rest ih =>
    rw [List.filter_cons]
    by_cases hp : p.1 = i
    · have hb : (!(p.1 == i)) = false := by simp [hp]
      rw [hb, if_neg (by simp)]
      rw [ih, hash_lookup_cons]
      have hpj : ¬ p.1 = j := by rw [hp]; exact fun h => hne h.symm
      rw [if_neg hpj]
    · have hb : (!(p.1 == i)) = true := by simp [hp]
      rw [hb, if_pos rfl]
      rw [hash_lookup_cons, hash_lookup_cons, ih]

lemma hashLaws (T : Type v) : StorageLaws (hashOps T) where
  get_new := fun i => rfl
  get_insert_self := fun s i v => by
    simp only [hashOps]
    rw [hash_lookup_cons]
    simp
  get_insert_other := fun s i j v hne => by
    simp only [hashOps]
    rw [hash_lookup_cons]
    have : ¬ i = j := fun h => hne h.symm
    simp only [this, if_false]
    exact hash_lookup_filter s i j hne
  get_set_self := fun s i v hs => by
    simp only [hashOps] at hs ⊢
    induction s with
    | nil => simp [HashMapStorage.lookup] at hs
    | cons p rest ih =>
      rw [hash_lookup_cons] at hs
      by_cases hp : p.1 = i
      · simp only [List.map_cons, hp, beq_self_eq_true, if_true]
        rw [hash_lookup_cons]
        simp
      · simp only [hp, if_false] at hs
        have hpb : (p.1 == i) = false := by simp [hp]
        simp only [List.map_cons, hpb, Bool.false_eq_true, if_false]
        rw [hash_lookup_cons]
        simp only [hp, if_false]
        exact ih hs
  get_set_other := fun s i j v hne => by
    simp only [hashOps]
    induction s with
    | nil => rfl
    | cons p rest ih =>
      by_cases hp : p.1 = i
      · simp only [List.map_cons, hp, beq_self_eq_true, if_true]
        rw [hash_lookup_cons, hash_lookup_cons]
        have h1 : ¬ i = j := fun h => hne h.symm
        have h2 : ¬ p.1 = j := by rw [hp]; exact h1
        simp only [h1, h2, if_false]
        exact ih
      · have hpb : (p.1 == i) = false := by simp [hp]
        simp only [List.map_cons, hpb, Bool.false_eq_true, if_false]
        rw [hash_lookup_cons, hash_lookup_cons]
        by_cases hj : p.1 = j
        · simp [hj]
        · simp only [hj, if_false]
          exact ih
  remove_val := fun s i => rfl
  get_remove_other := fun s i j hne => by
    simp only [hashOps]
    exact hash_lookup_filter s i j hne

/-! ## Generic facade lemmas (backend-independent) -/

lemma storage_insert_stale (ops : UnprotectedStorage S T) (a : Allocator)
    (s : MaskedStorage S T) (e : Entity) (v : T) (h : has_gen a e = false) :
    Storage.insert ops a s e v = (s, false) := by
  simp [Storage.insert, h]

lemma storage_get_stale (ops : UnprotectedStorage S T) (a : Allocator)
    (s : MaskedStorage S T) (e : Entity) (h : has_gen a e = false) :
    Storage.get ops a s e = none := by
  simp [Storage.get, h]

lemma storage_remove_stale (ops : UnprotectedStorage S T) (a : Allocator)
    (s : MaskedStorage S T) (e : Entity) (h : has_gen a e = false) :
    Storage.remove ops a s e = (s, none) := by
  simp [Storage.remove, h]

lemma masked_remove_not_mem (ops : UnprotectedStorage S T)
    (s : MaskedStorage S T) (id : Nat) (h : id ∉ s.mask) :
    MaskedStorage.remove ops s id = (s, none) := by
  simp [MaskedStorage.remove, h]

lemma storage_get_clear (ops : UnprotectedStorage S T) (a : Allocator)
    (s : MaskedStorage S T) (e : Entity) :
    Storage.get ops a (Storage.clear ops s) e = none := by
  simp [Storage.get, Storage.clear, MaskedStorage.clear]

lemma abs_new (ops : UnprotectedStorage S T) :
    Abs ops (MaskedStorage.new ops) (fun _ => none) := by
  intro i
  constructor
  · simp [MaskedStorage.new]
  · intro h
    simp [MaskedStorage.new] at h

lemma abs_get (ops : UnprotectedStorage S T) (a : Allocator)
    {s : MaskedStorage S T} {m : Nat → Option T} (habs : Abs ops s m)
    (e : Entity) :
    Storage.get ops a s e = if has_gen a e then m e.id else none := by
  unfold Storage.get
  by_cases hg : has_gen a e
  · simp only [hg, and_true, if_true]
    by_cases hm : e.id ∈ s.mask
    · rw [if_pos hm]
      exact (habs e.id).2 hm
    · rw [if_neg hm]
      have := (habs e.id).1
      cases hmi : m e.id with
      | none => rfl
      | some v =>
        exact absurd (this.mpr (by simp [hmi])) hm
  · simp [hg]

lemma storage_insert_valid_masked (ops : UnprotectedStorage S T) (a : Allocator)
    (s : MaskedStorage S T) (e : Entity) (v : T) (hg : has_gen a e = true)
    (hm : e.id ∈ s.mask) :
    Storage.insert ops a s e v = ({ s with inner := ops.set s.inner e.id v }, true) := by
  simp [Storage.insert, hg, hm]

lemma storage_insert_valid_unmasked (ops : UnprotectedStorage S T) (a : Allocator)
    (s : MaskedStorage S T) (e : Entity) (v : T) (hg : has_gen a e = true)
    (hm : e.id ∉ s.mask) :
    Storage.insert ops a s e v =
      ({ mask := Insert.insert e.id s.mask, inner := ops.insert s.inner e.id v },
        true) := by
  simp [Storage.insert, hg, hm]

lemma storage_remove_valid_masked (ops : UnprotectedStorage S T) (a : Allocator)
    (s : MaskedStorage S T) (e : Entity) (hg : has_gen a e = true)
    (hm : e.id ∈ s.mask) :
    Storage.remove ops a s e =
      ({ mask := s.mask.erase e.id, inner := (ops.remove s.inner e.id).1 },
        (ops.remove s.inner e.id).2) := by
  simp [Storage.remove, MaskedStorage.remove, hg, hm]

lemma storage_remove_valid_unmasked (ops : UnprotectedStorage S T) (a : Allocator)
    (s : MaskedStorage S T) (e : Entity) (hm : e.id ∉ s.mask) :
    Storage.remove ops a s e = (s, none) := by
  by_cases hg : has_gen a e
  · simp [Storage.remove, MaskedStorage.remove, hg, hm]
  · simp [Storage.remove, hg]

lemma storage_write_mut_hit (ops : UnprotectedStorage S T) (a : Allocator)
    (s : MaskedStorage S T) (e : Entity) (v : T) (hg : has_gen a e = true)
    (hm : e.id ∈ s.mask) :
    Storage.write_mut ops a s e v = { s with inner := ops.set s.inner e.id v } := by
  simp [Storage.write_mut, hg, hm]

lemma abs_insert (ops : UnprotectedStorage S T) (laws : StorageLaws ops)
    (a : Allocator) {s : MaskedStorage S T} {m : Nat → Option T}
    (habs : Abs ops s m) (e : Entity) (v : T) (hg : has_gen a e = true) :
    Abs ops (Storage.insert ops a s e v).1 (Function.update m e.id (some v)) ∧
      (Storage.insert ops a s e v).2 = true := by
  by_cases hm : e.id ∈ s.mask
  · rw [storage_insert_valid_masked ops a s e v hg hm]
    refine ⟨fun j => ?_, rfl⟩
    by_cases hj : j = e.id
    · subst hj
      constructor
      · simp [hm, Function.update]
      · intro _
        have hlive : (ops.get s.inner e.id).isSome := by
          rw [(habs e.id).2 hm]
          exact ((habs e.id).1).mp hm
        simp only [Function.update, dif_pos rfl]
        exact laws.get_set_self s.inner e.id v hlive
    · constructor
      · rw [Function.update_noteq hj]
        exact (habs j).1
      · intro hjm
        rw [Function.update_noteq hj]
        rw [laws.get_set_other s.inner e.id j v hj]
        exact (habs j).2 hjm
  · rw [storage_insert_valid_unmasked ops a s e v hg hm]
    refine ⟨fun j => ?_, rfl⟩
    by_cases hj : j = e.id
    · subst hj
      constructor
      · simp [Function.update]
      · intro _
        simp only [Function.update, dif_pos rfl]
        exact laws.get_insert_self s.inner e.id v
    · constructor
      · rw [Function.update_noteq hj]
        simp only [Finset.mem_insert]
        have := (habs j).1
        constructor
        · intro h
          rcases h with h | h
          · exact absurd h hj
          · exact this.mp h
        · intro h
          exact Or.inr (this.mpr h)
      · intro hjm
        simp only [Finset.mem_insert] at hjm
        rcases hjm with h | h
        · exact absurd h hj
        · rw [Function.update_noteq hj]
          rw [laws.get_insert_other s.inner e.id j v hj]
          exact (habs j).2 h

lemma abs_insert_stale (ops : UnprotectedStorage S T) (a : Allocator)
    {s : MaskedStorage S T} {m : Nat → Option T} (habs : Abs ops s m)
    (e : Entity) (v : T) (hg : has_gen a e = false) :
    Abs ops (Storage.insert ops a s e v).1 m ∧
      (Storage.insert ops a s e v).2 = false := by
  rw [storage_insert_stale ops a s e v hg]
  exact ⟨habs, rfl⟩

lemma abs_remove (ops : UnprotectedStorage S T) (laws : StorageLaws ops)
    (a : Allocator) {s : MaskedStorage S T} {m : Nat → Option T}
    (habs : Abs ops s m) (e : Entity) (hg : has_gen a e = true) :
    Abs ops (Storage.remove ops a s e).1 (Function.update m e.id none) ∧
      (Storage.remove ops a s e).2 = (if (m e.id).isSome then m e.id else none) := by
  by_cases hm : e.id ∈ s.mask
  · rw [storage_remove_valid_masked ops a s e hg hm]
    constructor
    · intro j
      by_cases hj : j = e.id
      · subst hj
        constructor
        · simp [Function.update]
        · intro hmem
          exact absurd hmem (by simp)
      · constructor
        · rw [Function.update_noteq hj]
          rw [Finset.mem_erase]
          exact ⟨fun h => ((habs j).1).mp h.2, fun h => ⟨hj, ((habs j).1).mpr h⟩⟩
        · intro hmem
          rw [Function.update_noteq hj]
          rw [laws.get_remove_other s.inner e.id j hj]
          exact (habs j).2 (Finset.mem_of_mem_erase hmem)
    · rw [laws.remove_val]
      have hv := (habs e.id).2 hm
      have hlive : (m e.id).isSome := ((habs e.id).1).mp hm
      rw [if_pos hlive, hv]
  · rw [storage_remove_valid_unmasked ops a s e hm]
    have hdead : (m e.id).isSome = false := by
      cases hmi : m e.id with
      | none => rfl
      | some v => exact absurd (((habs e.id).1).mpr (by simp [hmi])) hm
    constructor
    · intro j
      by_cases hj : j = e.id
      · subst hj
        constructor
        · rw [Function.update_same]
          simp [hm]
        · intro hmem
          exact absurd hmem hm
      · rw [Function.update_noteq hj]
        exact habs j
    · simp [hdead]

lemma abs_remove_stale (ops : UnprotectedStorage S T) (a : Allocator)
    {s : MaskedStorage S T} {m : Nat → Option T} (habs : Abs ops s m)
    (e : Entity) (hg : has_gen a e = false) :
    Abs ops (Storage.remove ops a s e).1 m ∧
      (Storage.remove ops a s e).2 = none := by
  rw [storage_remove_stale ops a s e hg]
  exact ⟨habs, rfl⟩

lemma abs_write_mut (ops : UnprotectedStorage S T) (laws : StorageLaws ops)
    (a : Allocator) {s : MaskedStorage S T} {m : Nat → Option T}
    (habs : Abs ops s m) (e : Entity) (v : T) :
    Abs ops (Storage.write_mut ops a s e v)
      (if (m e.id).isSome ∧ has_gen a e then Function.update m e.id (some v) else m) := by
  by_cases hg : has_gen a e
  · by_cases hm : e.id ∈ s.mask
    · rw [storage_write_mut_hit ops a s e v hg hm]
      have hlive : (m e.id).isSome := ((habs e.id).1).mp hm
      rw [if_pos ⟨hlive, hg⟩]
      intro j
      by_cases hj : j = e.id
      · subst hj
        constructor
        · simp [hm, Function.update]
        · intro _
          have hl : (ops.get s.inner e.id).isSome := by
            rw [(habs e.id).2 hm]; exact hlive
          simp only [Function.update, dif_pos rfl]
          exact laws.get_set_self s.inner e.id v hl
      · constructor
        · rw [Function.update_noteq hj]
          exact (habs j).1
        · intro hjm
          rw [Function.update_noteq hj]
          rw [laws.get_set_other s.inner e.id j v hj]
          exact (habs j).2 hjm
    · have hdead : ¬ (m e.id).isSome := fun h => hm (((habs e.id).1).mpr h)
      rw [if_neg (fun hc => hdead hc.1)]
      have : Storage.write_mut ops a s e v = s := by
        simp [Storage.write_mut, hm]
      rw [this]
      exact habs
  · rw [if_neg (fun hc => hg hc.2)]
    have : Storage.write_mut ops a s e v = s := by
      simp [Storage.write_mut, hg]
    rw [this]
    exact habs

lemma abs_clear (ops : UnprotectedStorage S T)
    {s : MaskedStorage S T} :
    Abs ops (Storage.clear ops s) (fun _ => none) := by
  intro i
  constructor
  · simp [Storage.clear, MaskedStorage.clear]
  · intro h
    simp [Storage.clear, MaskedStorage.clear] at h

lemma abs_step (ops : UnprotectedStorage S T) (laws : StorageLaws ops)
    (a : Allocator) {s : MaskedStorage S T} {m : Nat → Option T}
    (habs : Abs ops s m) (o : Op T) :
    Abs ops (Op.step ops a s o).1 (absStep a m o).1 ∧
      (Op.step ops a s o).2 = (absStep a m o).2 := by
  cases o with
  | get e =>
    refine ⟨habs, ?_⟩
    simp only [Op.step, absStep]
    rw [abs_get ops a habs e]
  | insert e v =>
    by_cases hg : has_gen a e
    · have hgt : has_gen a e = true := hg
      have h := abs_insert ops laws a habs e v hgt
      have hstep : absStep a m (Op.insert e v) =
          (Function.update m e.id (some v), .flag true) := by
        simp [absStep, hgt]
      rw [show Op.step ops a s (Op.insert e v) =
          ((Storage.insert ops a s e v).1, .flag (Storage.insert ops a s e v).2)
          from rfl, hstep]
      exact ⟨h.1, by rw [h.2]⟩
    · have hgf : has_gen a e = false := Bool.not_eq_true _ ▸ Bool.of_not_eq_true hg
      have h := abs_insert_stale ops a habs e v hgf
      have hstep : absStep a m (Op.insert e v) = (m, .flag false) := by
        simp [absStep, hgf]
      rw [show Op.step ops a s (Op.insert e v) =
          ((Storage.insert ops a s e v).1, .flag (Storage.insert ops a s e v).2)
          from rfl, hstep]
      exact ⟨h.1, by rw [h.2]⟩
  | remove e =>
    by_cases hg : has_gen a e
    · have hgt : has_gen a e = true := hg
      have h := abs_remove ops laws a habs e hgt
      have hstep : absStep a m (Op.remove e) =
          (Function.update m e.id none,
            .payload (if (m e.id).isSome then m e.id else none)) := by
        simp only [absStep]
        rw [if_pos hg]
      rw [show Op.step ops a s (Op.remove e) =
          ((Storage.remove ops a s e).1, .payload (Storage.remove ops a s e).2)
          from rfl, hstep]
      exact ⟨h.1, by rw [h.2]⟩
    · have hgf : has_gen a e = false := Bool.not_eq_true _ ▸ Bool.of_not_eq_true hg
      have h := abs_remove_stale ops a habs e hgf
      have hstep : absStep a m (Op.remove e) = (m, .payload none) := by
        simp only [absStep]
        rw [if_neg hg]
      rw [show Op.step ops a s (Op.remove e) =
          ((Storage.remove ops a s e).1, .payload (Storage.remove ops a s e).2)
          from rfl, hstep]
      exact ⟨h.1, by rw [h.2]⟩
  | write_mut e v =>
    exact ⟨abs_write_mut ops laws a habs e v, rfl⟩
  | clear =>
    exact ⟨abs_clear ops, rfl⟩

lemma abs_run (ops : UnprotectedStorage S T) (laws : StorageLaws ops)
    (a : Allocator) :
    ∀ (l : List (Op T)) {s : MaskedStorage S T} {m : Nat → Option T},
      Abs ops s m →
      Abs ops (runOps ops a s l).1 (absRun a m l).1 ∧
        (runOps ops a s l).2 = (absRun a m l).2
  | [], s, m, habs => ⟨habs, rfl⟩
  | o :: rest, s, m, habs => by
    have hstep := abs_step ops laws a habs o
    have hrest := abs_run ops laws a rest hstep.1
    simp only [runOps, absRun]
    exact ⟨hrest.1, by rw [hstep.2, hrest.2]⟩

lemma has_gen_new (i g : Nat) :
    has_gen Allocator.new ⟨i, g⟩ = (g == 1) := by
  cases i <;> rfl

lemma abs_insertAll (ops : UnprotectedStorage S T) (laws : StorageLaws ops)
    (a : Allocator) :
    ∀ (l : List (Nat × T)) {s : MaskedStorage S T} {m : Nat → Option T},
      (∀ p ∈ l, has_gen a ⟨p.1, 1⟩ = true) → Abs ops s m →
      Abs ops (insertAll ops a s l) (absInsertAll m l)
  | [], s, m, _, habs => habs
  | p :: rest, s, m, hgen, habs => by
    have hg : has_gen a ⟨p.1, 1⟩ = true := hgen p (List.mem_cons_self p rest)
    have h := abs_insert ops laws a habs ⟨p.1, 1⟩ p.2 hg
    exact abs_insertAll ops laws a rest
      (fun q hq => hgen q (List.mem_cons_of_mem p hq)) h.1

lemma absInsertAll_not_mem :
    ∀ (l : List (Nat × T)) (m : Nat → Option T) (i : Nat),
      i ∉ l.map Prod.fst → absInsertAll m l i = m i
  | [], m, i, _ => rfl
  | p :: rest, m, i, h => by
    have hi : i ≠ p.1 := by
      intro hc
      exact h (by simp [hc])
    have hrest : i ∉ rest.map Prod.fst := by
      intro hc
      exact h (by simp [hc])
    rw [show absInsertAll m (p :: rest) = absInsertAll (Function.update m p.1 (some p.2)) rest from rfl]
    rw [absInsertAll_not_mem rest _ i hrest, Function.update_noteq hi]

lemma absInsertAll_mem :
    ∀ (l : List (Nat × T)) (m : Nat → Option T),
      (l.map Prod.fst).Nodup → ∀ p ∈ l, absInsertAll m l p.1 = some p.2
  | [], _, _, p, hp => absurd hp (List.not_mem_nil p)
  | q :: rest, m, hnodup, p, hp => by
    rw [List.map_cons, List.nodup_cons] at hnodup
    rw [show absInsertAll m (q :: rest) = absInsertAll (Function.update m q.1 (some q.2)) rest from rfl]
    rcases List.mem_cons.mp hp with hpq | hptail
    · subst hpq
      rw [absInsertAll_not_mem rest _ p.1 hnodup.1, Function.update_same]
    · exact absInsertAll_mem rest _ hnodup.2 p hptail

lemma abs_removeAll (ops : UnprotectedStorage S T) (laws : StorageLaws ops)
    (a : Allocator) :
    ∀ (ids : List Nat) {s : MaskedStorage S T} {m : Nat → Option T},
      (∀ i ∈ ids, has_gen a ⟨i, 1⟩ = true) → Abs ops s m →
      Abs ops (removeAll ops a s ids).1 (absRemoveAll m ids).1 ∧
        (removeAll ops a s ids).2 = (absRemoveAll m ids).2
  | [], s, m, _, habs => ⟨habs, rfl⟩
  | i :: rest, s, m, hgen, habs => by
    have hg : has_gen a ⟨i, 1⟩ = true := hgen i (List.mem_cons_self i rest)
    have h := abs_remove ops laws a habs ⟨i, 1⟩ hg
    have hval : (if (m i).isSome then m i else none) = m i := by
      cases m i <;> simp
    have hrest := abs_removeAll ops laws a rest
      (fun j hj => hgen j (List.mem_cons_of_mem i hj)) h.1
    refine ⟨hrest.1, ?_⟩
    show (Storage.remove ops a s ⟨i, 1⟩).2 :: (removeAll ops a _ rest).2 =
      m i :: (absRemoveAll (Function.update m i none) rest).2
    rw [h.2, hval, hrest.2]

lemma absRemoveAll_out :
    ∀ (ids : List Nat) (m : Nat → Option T), ids.Nodup →
      (absRemoveAll m ids).2 = ids.map m
  | [], _, _ => rfl
  | i :: rest, m, hnodup => by
    rw [List.nodup_cons] at hnodup
    show m i :: (absRemoveAll (Function.update m i none) rest).2 = m i :: rest.map m
    rw [absRemoveAll_out rest _ hnodup.2]
    congr 1
    refine List.map_congr_left fun j hj => ?_
    have hji : j ≠ i := fun hc => hnodup.1 (hc ▸ hj)
    exact Function.update_noteq hji none m

lemma absRemoveAll_final_none :
    ∀ (ids : List Nat) (m : Nat → Option T) (j : Nat),
      (m j = none ∨ j ∈ ids) → (absRemoveAll m ids).1 j = none
  | [], m, j, h => by
    rcases h with h | h
    · exact h
    · exact absurd h (List.not_mem_nil j)
  | i :: rest, m, j, h => by
    show (absRemoveAll (Function.update m i none) rest).1 j = none
    apply absRemoveAll_final_none rest _ j
    by_cases hji : j = i
    · subst hji
      exact Or.inl (Function.update_same j none m)
    · rcases h with h | h
      · exact Or.inl (by rw [Function.update_noteq hji]; exact h)
      · rcases List.mem_cons.mp h with hc | hc
        · exact absurd hc hji
        · exact Or.inr hc

lemma vecDead_new : VecDead (MaskedStorage.new (vecOps T)) := by
  intro i _
  simp [MaskedStorage.new, vecOps]

lemma vecDead_insert (a : Allocator) {s : MaskedStorage (VecStorage T) T}
    (h : VecDead s) (e : Entity) (v : T) :
    VecDead (Storage.insert (vecOps T) a s e v).1 := by
  by_cases hg : has_gen a e
  · by_cases hm : e.id ∈ s.mask
    · rw [storage_insert_valid_masked (vecOps T) a s e v hg hm]
      intro j hj
      have hjm : j ∉ s.mask := hj
      have hje : j ≠ e.id := fun hc => hjm (hc ▸ hm)
      show (vecOps T).get ((vecOps T).set s.inner e.id v) j = none
      rw [(vecLaws T).get_set_other s.inner e.id j v hje]
      exact h j hjm
    · rw [storage_insert_valid_unmasked (vecOps T) a s e v hg hm]
      intro j hj
      have hjm : j ∉ Insert.insert e.id s.mask := hj
      simp only [Finset.mem_insert, not_or] at hjm
      show (vecOps T).get ((vecOps T).insert s.inner e.id v) j = none
      rw [(vecLaws T).get_insert_other s.inner e.id j v hjm.1]
      exact h j hjm.2
  · rw [storage_insert_stale (vecOps T) a s e v
      (Bool.not_eq_true _ ▸ Bool.of_not_eq_true hg)]
    exact h

lemma vecDead_remove (a : Allocator) {s : MaskedStorage (VecStorage T) T}
    (h : VecDead s) (e : Entity) :
    VecDead (Storage.remove (vecOps T) a s e).1 := by
  by_cases hg : has_gen a e
  · by_cases hm : e.id ∈ s.mask
    · rw [storage_remove_valid_masked (vecOps T) a s e hg hm]
      intro j hj
      have hjm : j ∉ s.mask.erase e.id := hj
      by_cases hje : j = e.id
      · subst hje
        exact vec_get_remove_self s.inner e.id
      · show (vecOps T).get (((vecOps T).remove s.inner e.id).1) j = none
        rw [(vecLaws T).get_remove_other s.inner e.id j hje]
        apply h j
        intro hjmem
        exact hjm (Finset.mem_erase.mpr ⟨hje, hjmem⟩)
    · rw [storage_remove_valid_unmasked (vecOps T) a s e hm]
      exact h
  · rw [storage_remove_stale (vecOps T) a s e
      (Bool.not_eq_true _ ▸ Bool.of_not_eq_true hg)]
    exact h

lemma vecDead_write_mut (a : Allocator) {s : MaskedStorage (VecStorage T) T}
    (h : VecDead s) (e : Entity) (v : T) :
    VecDead (Storage.write_mut (vecOps T) a s e v) := by
  unfold Storage.write_mut
  by_cases hcond : e.id ∈ s.mask ∧ has_gen a e
  · rw [if_pos hcond]
    intro j hj
    have hjm : j ∉ s.mask := hj
    have hje : j ≠ e.id := fun hc => hjm (hc ▸ hcond.1)
    show (vecOps T).get ((vecOps T).set s.inner e.id v) j = none
    rw [(vecLaws T).get_set_other s.inner e.id j v hje]
    exact h j hjm
  · rw [if_neg hcond]
    exact h

lemma vecDead_clear {s : MaskedStorage (VecStorage T) T} :
    VecDead (Storage.clear (vecOps T) s) := by
  intro j _
  show (vecOps T).get ((vecOps T).clean s.inner (fun i => decide (i ∈ s.mask))) j = none
  exact vec_get_clean s.inner _ j

lemma vecDead_step (a : Allocator) {s : MaskedStorage (VecStorage T) T}
    (h : VecDead s) (o : Op T) :
    VecDead (Op.step (vecOps T) a s o).1 := by
  cases o with
  | get e => exact h
  | insert e v => exact vecDead_insert a h e v
  | remove e => exact vecDead_remove a h e
  | write_mut e v => exact vecDead_write_mut a h e v
  | clear => exact vecDead_clear

lemma vecDead_run (a : Allocator) :
    ∀ (l : List (Op T)) {s : MaskedStorage (VecStorage T) T},
      VecDead s → VecDead (runOps (vecOps T) a s l).1
  | [], _, h => h
  | o :: rest, s, h => by
    exact vecDead_run a rest (vecDead_step a h o)

/-! ## The round-trip and removal scenarios of spec §8, generically over a
law-abiding backend -/

lemma insertAll_get (ops : UnprotectedStorage S T) (laws : StorageLaws ops)
    (l : List (Nat × T)) (hnodup : (l.map Prod.fst).Nodup) :
    ∀ p ∈ l, Storage.get ops Allocator.new
      (insertAll ops Allocator.new (MaskedStorage.new ops) l) ⟨p.1, 1⟩ = some p.2 := by
  intro p hp
  have hgen : ∀ q ∈ l, has_gen Allocator.new ⟨q.1, 1⟩ = true := by
    intro q _
    rw [has_gen_new]
    rfl
  have habs := abs_insertAll ops laws Allocator.new l hgen (abs_new ops)
  rw [abs_get ops Allocator.new habs ⟨p.1, 1⟩]
  rw [if_pos (show (has_gen Allocator.new ⟨p.1, 1⟩ : Prop) by rw [has_gen_new]; rfl)]
  exact absInsertAll_mem l _ hnodup p hp

lemma removeAll_props (ops : UnprotectedStorage S T) (laws : StorageLaws ops)
    (l : List (Nat × T)) (hnodup : (l.map Prod.fst).Nodup) :
    (removeAll ops Allocator.new
        (insertAll ops Allocator.new (MaskedStorage.new ops) l) (l.map Prod.fst)).2 =
      l.map (fun p => some p.2) ∧
    ∀ i ∈ l.map Prod.fst,
      i ∉ (removeAll ops Allocator.new
        (insertAll ops Allocator.new (MaskedStorage.new ops) l) (l.map Prod.fst)).1.mask ∧
      (∀ g, Storage.get ops Allocator.new
        (removeAll ops Allocator.new
          (insertAll ops Allocator.new (MaskedStorage.new ops) l) (l.map Prod.fst)).1
        ⟨i, g⟩ = none) ∧
      Storage.remove ops Allocator.new
        (removeAll ops Allocator.new
          (insertAll ops Allocator.new (MaskedStorage.new ops) l) (l.map Prod.fst)).1
        ⟨i, 1⟩ =
        ((removeAll ops Allocator.new
          (insertAll ops Allocator.new (MaskedStorage.new ops) l) (l.map Prod.fst)).1,
          none) := by
  have hgen : ∀ q ∈ l, has_gen Allocator.new ⟨q.1, 1⟩ = true := by
    intro q _
    rw [has_gen_new]
    rfl
  have hgenIds : ∀ i ∈ l.map Prod.fst, has_gen Allocator.new ⟨i, 1⟩ = true := by
    intro i _
    rw [has_gen_new]
    rfl
  have habs1 := abs_insertAll ops laws Allocator.new l hgen (abs_new ops)
  have hrem := abs_removeAll ops laws Allocator.new (l.map Prod.fst) hgenIds habs1
  constructor
  · rw [hrem.2, absRemoveAll_out (l.map Prod.fst) _ hnodup, List.map_map]
    refine List.map_congr_left fun p hp => ?_
    exact absInsertAll_mem l _ hnodup p hp
  · intro i hi
    have hfin : (absRemoveAll (absInsertAll (fun _ => none) l) (l.map Prod.fst)).1 i
        = none := absRemoveAll_final_none _ _ i (Or.inr hi)
    have hnm : i ∉ (removeAll ops Allocator.new
        (insertAll ops Allocator.new (MaskedStorage.new ops) l) (l.map Prod.fst)).1.mask := by
      intro hc
      have := ((hrem.1 i).1).mp hc
      rw [hfin] at this
      simp at this
    refine ⟨hnm, ?_, ?_⟩
    · intro g
      rw [abs_get ops Allocator.new hrem.1 ⟨i, g⟩]
      by_cases hg : has_gen Allocator.new ⟨i, g⟩
      · rw [if_pos hg]
        exact hfin
      · rw [if_neg hg]
    · exact storage_remove_valid_unmasked ops Allocator.new _ ⟨i, 1⟩ hnm

/-! ## Frame lemmas for untouched indices -/

lemma storage_get_eq_of (ops : UnprotectedStorage S T) (a : Allocator)
    {s1 s2 : MaskedStorage S T} (j g : Nat)
    (h1 : j ∈ s1.mask ↔ j ∈ s2.mask)
    (h2 : ops.get s1.inner j = ops.get s2.inner j) :
    Storage.get ops a s1 ⟨j, g⟩ = Storage.get ops a s2 ⟨j, g⟩ := by
  unfold Storage.get
  by_cases hc : j ∈ s2.mask ∧ has_gen a ⟨j, g⟩
  · rw [if_pos (show (⟨j, g⟩ : Entity).id ∈ s1.mask ∧ has_gen a ⟨j, g⟩ from
      ⟨h1.mpr hc.1, hc.2⟩), if_pos hc]
    exact h2
  · rw [if_neg (fun hcc => hc ⟨h1.mp hcc.1, hcc.2⟩), if_neg hc]

lemma frame_insert (ops : UnprotectedStorage S T) (laws : StorageLaws ops)
    (a : Allocator) (s : MaskedStorage S T) (e : Entity) (v : T) (j g : Nat)
    (hj : j ≠ e.id) :
    ((j ∈ (Storage.insert ops a s e v).1.mask) ↔ j ∈ s.mask) ∧
    Storage.get ops a (Storage.insert ops a s e v).1 ⟨j, g⟩ =
      Storage.get ops a s ⟨j, g⟩ := by
  by_cases hg : has_gen a e
  · by_cases hm : e.id ∈ s.mask
    · rw [storage_insert_valid_masked ops a s e v hg hm]
      exact ⟨Iff.rfl, storage_get_eq_of ops a j g Iff.rfl
        (laws.get_set_other s.inner e.id j v hj)⟩
    · rw [storage_insert_valid_unmasked ops a s e v hg hm]
      have hmask : j ∈ Insert.insert e.id s.mask ↔ j ∈ s.mask := by
        rw [Finset.mem_insert]
        exact ⟨fun h => h.elim (fun hc => absurd hc hj) id, Or.inr⟩
      exact ⟨hmask, storage_get_eq_of ops a j g hmask
        (laws.get_insert_other s.inner e.id j v hj)⟩
  · rw [storage_insert_stale ops a s e v (Bool.not_eq_true _ ▸ Bool.of_not_eq_true hg)]
    exact ⟨Iff.rfl, rfl⟩

lemma frame_remove (ops : UnprotectedStorage S T) (laws : StorageLaws ops)
    (a : Allocator) (s : MaskedStorage S T) (e : Entity) (j g : Nat)
    (hj : j ≠ e.id) :
    ((j ∈ (Storage.remove ops a s e).1.mask) ↔ j ∈ s.mask) ∧
    Storage.get ops a (Storage.remove ops a s e).1 ⟨j, g⟩ =
      Storage.get ops a s ⟨j, g⟩ := by
  by_cases hg : has_gen a e
  · by_cases hm : e.id ∈ s.mask
    · rw [storage_remove_valid_masked ops a s e hg hm]
      have hmask : j ∈ s.mask.erase e.id ↔ j ∈ s.mask := by
        rw [Finset.mem_erase]
        exact ⟨And.right, fun h => ⟨hj, h⟩⟩
      exact ⟨hmask, storage_get_eq_of ops a j g hmask
        (laws.get_remove_other s.inner e.id j hj)⟩
    · rw [storage_remove_valid_unmasked ops a s e hm]
      exact ⟨Iff.rfl, rfl⟩
  · rw [storage_remove_stale ops a s e (Bool.not_eq_true _ ▸ Bool.of_not_eq_true hg)]
    exact ⟨Iff.rfl, rfl⟩

/-! ## Claim theorems -/

/-- C1: for every store state and every identifier whose generation does
not match the Allocator's current generation for its index,
`Storage::insert` returns `false` and leaves the store completely
unchanged (so any payload stored under the currently valid generation is
untouched), and `get` with the stale identifier returns absent. -/
theorem stale_insert_noop (ops : UnprotectedStorage S T) (a : Allocator)
    (s : MaskedStorage S T) (e : Entity) (v : T) (h : has_gen a e = false) :
    Storage.insert ops a s e v = (s, false) ∧ Storage.get ops a s e = none :=
  ⟨storage_insert_stale ops a s e v h, storage_get_stale ops a s e h⟩

/-- Witness for C1: value 7 was stored at index 0 under generation 1; an
insert under generation 2 (while the fresh Allocator still reports
generation 1) fails and changes nothing. -/
theorem stale_insert_noop_witness :
    has_gen Allocator.new ⟨0, 2⟩ = false ∧
    (Storage.insert (vecOps Nat) Allocator.new
        (Storage.insert (vecOps Nat) Allocator.new
          (MaskedStorage.new (vecOps Nat)) ⟨0, 1⟩ 7).1 ⟨0, 2⟩ 9 =
      ((Storage.insert (vecOps Nat) Allocator.new
          (MaskedStorage.new (vecOps Nat)) ⟨0, 1⟩ 7).1, false) ∧
     Storage.get (vecOps Nat) Allocator.new
        (Storage.insert (vecOps Nat) Allocator.new
          (MaskedStorage.new (vecOps Nat)) ⟨0, 1⟩ 7).1 ⟨0, 2⟩ = none) :=
  ⟨by decide,
   stale_insert_noop (vecOps Nat) Allocator.new _ ⟨0, 2⟩ 9 (by decide)⟩

/-- C2: for a store whose masked slots are all live, `get` (and `get_mut`)
returns the stored payload exactly when the identifier's index is in the
presence set and its generation equals the Allocator's current generation
for that index, defaulting to 1 for an index never recorded; otherwise it
returns absent. -/
theorem get_present_currentgen_iff (ops : UnprotectedStorage S T)
    (a : Allocator) (s : MaskedStorage S T) (e : Entity)
    (hlive : ∀ i ∈ s.mask, (ops.get s.inner i).isSome) :
    ((Storage.get ops a s e).isSome ↔
      e.id ∈ s.mask ∧ e.gen = (a.generations.get? e.id).getD 1) ∧
    Storage.get_mut ops a s e = Storage.get ops a s e := by
  have hgen_iff : (has_gen a e = true) ↔
      e.gen = (a.generations.get? e.id).getD 1 := by
    unfold has_gen
    exact beq_iff_eq
  constructor
  · unfold Storage.get
    by_cases hcond : e.id ∈ s.mask ∧ has_gen a e
    · rw [if_pos hcond]
      have h1 : (ops.get s.inner e.id).isSome = true := hlive e.id hcond.1
      rw [h1]
      exact ⟨fun _ => ⟨hcond.1, hgen_iff.mp hcond.2⟩, fun _ => rfl⟩
    · rw [if_neg hcond]
      constructor
      · intro hfalse
        exact absurd hfalse (by simp)
      · intro hP
        exact absurd ⟨hP.1, hgen_iff.mpr hP.2⟩ hcond
  · rfl

/-- Witness for C2: a store holding value 5 at index 2 under generation 1,
probed with the matching identifier. -/
theorem get_present_currentgen_iff_witness :
    (∀ i ∈ (Storage.insert (vecOps Nat) Allocator.new
        (MaskedStorage.new (vecOps Nat)) ⟨2, 1⟩ 5).1.mask,
      ((vecOps Nat).get (Storage.insert (vecOps Nat) Allocator.new
        (MaskedStorage.new (vecOps Nat)) ⟨2, 1⟩ 5).1.inner i).isSome) ∧
    (((Storage.get (vecOps Nat) Allocator.new
        (Storage.insert (vecOps Nat) Allocator.new
          (MaskedStorage.new (vecOps Nat)) ⟨2, 1⟩ 5).1 ⟨2, 1⟩).isSome ↔
      (2 : Nat) ∈ (Storage.insert (vecOps Nat) Allocator.new
        (MaskedStorage.new (vecOps Nat)) ⟨2, 1⟩ 5).1.mask ∧
      (1 : Nat) = (Allocator.new.generations.get? 2).getD 1) ∧
     Storage.get_mut (vecOps Nat) Allocator.new
        (Storage.insert (vecOps Nat) Allocator.new
          (MaskedStorage.new (vecOps Nat)) ⟨2, 1⟩ 5).1 ⟨2, 1⟩ =
       Storage.get (vecOps Nat) Allocator.new
        (Storage.insert (vecOps Nat) Allocator.new
          (MaskedStorage.new (vecOps Nat)) ⟨2, 1⟩ 5).1 ⟨2, 1⟩) :=
  ⟨by decide,
   get_present_currentgen_iff (vecOps Nat) Allocator.new _ ⟨2, 1⟩ (by decide)⟩

/-- C3 counterexample: with the sparse-hash backend, after inserting value
5 at index 0 (generation 1) and then clearing, index 0 is no longer in the
presence set, yet the hash table still holds the live, constructed entry 5
(its `clean` is a no-op), so the claimed presence ⇔ live-slot equivalence
fails at this externally observable point. -/
theorem lockstep_iff_cex :
    ((0 : Nat) ∉ (runOps (hashOps Nat) Allocator.new
        (MaskedStorage.new (hashOps Nat)) [Op.insert ⟨0, 1⟩ 5, Op.clear]).1.mask ∧
     (hashOps Nat).get (runOps (hashOps Nat) Allocator.new
        (MaskedStorage.new (hashOps Nat)) [Op.insert ⟨0, 1⟩ 5, Op.clear]).1.inner 0 =
       some 5) ∧
    ¬ ((0 : Nat) ∈ (runOps (hashOps Nat) Allocator.new
        (MaskedStorage.new (hashOps Nat)) [Op.insert ⟨0, 1⟩ 5, Op.clear]).1.mask ↔
       ((hashOps Nat).get (runOps (hashOps Nat) Allocator.new
        (MaskedStorage.new (hashOps Nat)) [Op.insert ⟨0, 1⟩ 5, Op.clear]).1.inner
        0).isSome) := by
  decide

/-- C3 (amended): over every sequence of facade operations from a fresh
store, the presence set and the backend stay in lock-step in the following
form: for the dense-array backend, an index is in the presence set iff its
slot holds a live constructed value; for the sparse-hash and flag backends
the forward direction holds (every present index has a live slot), which
is what the unchecked accesses rely on, but the backend may keep live
values outside the set (the hash table retains entries after `clear`, and
the flag backend's single shared cell is always constructed). -/
theorem lockstep_amended (T : Type) [Inhabited T] (a : Allocator)
    (l : List (Op T)) :
    (∀ i, i ∈ (runOps (vecOps T) a (MaskedStorage.new (vecOps T)) l).1.mask ↔
      ((vecOps T).get
        (runOps (vecOps T) a (MaskedStorage.new (vecOps T)) l).1.inner i).isSome) ∧
    (∀ i, i ∈ (runOps (hashOps T) a (MaskedStorage.new (hashOps T)) l).1.mask →
      ((hashOps T).get
        (runOps (hashOps T) a (MaskedStorage.new (hashOps T)) l).1.inner i).isSome) ∧
    (∀ i, i ∈ (runOps (dummyOps T) a (MaskedStorage.new (dummyOps T)) l).1.mask →
      ((dummyOps T).get
        (runOps (dummyOps T) a (MaskedStorage.new (dummyOps T)) l).1.inner i).isSome) := by
  refine ⟨?_, ?_, ?_⟩
  · have habs := (abs_run (vecOps T) (vecLaws T) a l (abs_new (vecOps T))).1
    have hdead := vecDead_run a l vecDead_new
    intro i
    constructor
    · intro hm
      rw [(habs i).2 hm]
      exact ((habs i).1).mp hm
    · intro hs
      by_contra hnm
      rw [hdead i hnm] at hs
      simp at hs
  · have habs := (abs_run (hashOps T) (hashLaws T) a l (abs_new (hashOps T))).1
    intro i hm
    rw [(habs i).2 hm]
    exact ((habs i).1).mp hm
  · intro i _
    rfl

/-- C4: inserting any batch of identifiers with pairwise-distinct fresh
indices (generation 1), each with its own payload, and then calling `get`
on each of them, returns exactly the payload that was inserted — for both
the dense-array and the sparse-hash backend. -/
theorem round_trip (T : Type) (l : List (Nat × T))
    (hnodup : (l.map Prod.fst).Nodup) :
    (∀ p ∈ l, Storage.get (vecOps T) Allocator.new
      (runInserts (vecOps T) l) ⟨p.1, 1⟩ = some p.2) ∧
    (∀ p ∈ l, Storage.get (hashOps T) Allocator.new
      (runInserts (hashOps T) l) ⟨p.1, 1⟩ = some p.2) :=
  ⟨insertAll_get (vecOps T) (vecLaws T) l hnodup,
   insertAll_get (hashOps T) (hashLaws T) l hnodup⟩

/-- Witness for C4 on the batch (0 ↦ 10, 3 ↦ 11, 1 ↦ 12). -/
theorem round_trip_witness :
    ((([(0, 10), (3, 11), (1, 12)] : List (Nat × Nat)).map Prod.fst).Nodup) ∧
    ((∀ p ∈ ([(0, 10), (3, 11), (1, 12)] : List (Nat × Nat)),
        Storage.get (vecOps Nat) Allocator.new
          (runInserts (vecOps Nat) [(0, 10), (3, 11), (1, 12)]) ⟨p.1, 1⟩ = some p.2) ∧
     (∀ p ∈ ([(0, 10), (3, 11), (1, 12)] : List (Nat × Nat)),
        Storage.get (hashOps Nat) Allocator.new
          (runInserts (hashOps Nat) [(0, 10), (3, 11), (1, 12)]) ⟨p.1, 1⟩ = some p.2)) :=
  ⟨by decide, round_trip Nat [(0, 10), (3, 11), (1, 12)] (by decide)⟩

/-- C5: after inserting a batch of distinct identifiers and then removing
each of them once, every first remove returns the stored payload, `get`
then returns absent for all of them, and a second `remove` on any of them
returns absent leaving the store as is (for both the dense and sparse
backends); in general, removing an index that is not in the presence set
is a no-op returning absent. -/
theorem removal_exhaustive_idempotent (T : Type) (l : List (Nat × T))
    (hnodup : (l.map Prod.fst).Nodup)
    (S2 : Type) (ops2 : UnprotectedStorage S2 T) (s2 : MaskedStorage S2 T)
    (i2 : Nat) (hno : i2 ∉ s2.mask) :
    ((runRemovals (vecOps T) l).2 = l.map (fun p => some p.2) ∧
     ∀ i ∈ l.map Prod.fst,
       Storage.get (vecOps T) Allocator.new (runRemovals (vecOps T) l).1 ⟨i, 1⟩ = none ∧
       Storage.remove (vecOps T) Allocator.new (runRemovals (vecOps T) l).1 ⟨i, 1⟩ =
         ((runRemovals (vecOps T) l).1, none)) ∧
    ((runRemovals (hashOps T) l).2 = l.map (fun p => some p.2) ∧
     ∀ i ∈ l.map Prod.fst,
       Storage.get (hashOps T) Allocator.new (runRemovals (hashOps T) l).1 ⟨i, 1⟩ = none ∧
       Storage.remove (hashOps T) Allocator.new (runRemovals (hashOps T) l).1 ⟨i, 1⟩ =
         ((runRemovals (hashOps T) l).1, none)) ∧
    MaskedStorage.remove ops2 s2 i2 = (s2, none) := by
  have hv := removeAll_props (vecOps T) (vecLaws T) l hnodup
  have hh := removeAll_props (hashOps T) (hashLaws T) l hnodup
  exact ⟨⟨hv.1, fun i hi => ⟨(hv.2 i hi).2.1 1, (hv.2 i hi).2.2⟩⟩,
         ⟨hh.1, fun i hi => ⟨(hh.2 i hi).2.1 1, (hh.2 i hi).2.2⟩⟩,
         masked_remove_not_mem ops2 s2 i2 hno⟩

/-- Witness for C5 on the batch (0 ↦ 10, 1 ↦ 11), plus a remove of the
never-present index 5 on a fresh flag-backed store. -/
theorem removal_exhaustive_idempotent_witness :
    ((([(0, 10), (1, 11)] : List (Nat × Nat)).map Prod.fst).Nodup) ∧
    ((5 : Nat) ∉ (MaskedStorage.new (dummyOps Nat)).mask) ∧
    (((runRemovals (vecOps Nat) [(0, 10), (1, 11)]).2 =
        ([(0, 10), (1, 11)] : List (Nat × Nat)).map (fun p => some p.2) ∧
      ∀ i ∈ ([(0, 10), (1, 11)] : List (Nat × Nat)).map Prod.fst,
        Storage.get (vecOps Nat) Allocator.new
          (runRemovals (vecOps Nat) [(0, 10), (1, 11)]).1 ⟨i, 1⟩ = none ∧
        Storage.remove (vecOps Nat) Allocator.new
          (runRemovals (vecOps Nat) [(0, 10), (1, 11)]).1 ⟨i, 1⟩ =
          ((runRemovals (vecOps Nat) [(0, 10), (1, 11)]).1, none)) ∧
     ((runRemovals (hashOps Nat) [(0, 10), (1, 11)]).2 =
        ([(0, 10), (1, 11)] : List (Nat × Nat)).map (fun p => some p.2) ∧
      ∀ i ∈ ([(0, 10), (1, 11)] : List (Nat × Nat)).map Prod.fst,
        Storage.get (hashOps Nat) Allocator.new
          (runRemovals (hashOps Nat) [(0, 10), (1, 11)]).1 ⟨i, 1⟩ = none ∧
        Storage.remove (hashOps Nat) Allocator.new
          (runRemovals (hashOps Nat) [(0, 10), (1, 11)]).1 ⟨i, 1⟩ =
          ((runRemovals (hashOps Nat) [(0, 10), (1, 11)]).1, none)) ∧
     MaskedStorage.remove (dummyOps Nat) (MaskedStorage.new (dummyOps Nat)) 5 =
       (MaskedStorage.new (dummyOps Nat), none)) :=
  ⟨by decide, by decide,
   removal_exhaustive_idempotent Nat [(0, 10), (1, 11)] (by decide)
     (DummyStorage Nat) (dummyOps Nat) (MaskedStorage.new (dummyOps Nat)) 5
     (by decide)⟩

/-- C6: after `clear()` the store is empty — `get` returns absent for
every identifier regardless of generation validity — and calling `clear`
any number of additional times (including on the already-empty store)
keeps it empty. -/
theorem clear_empties_unconditionally (ops : UnprotectedStorage S T)
    (a : Allocator) (s : MaskedStorage S T) (n : Nat) (e : Entity) :
    Storage.get ops a ((Storage.clear ops)^[n + 1] s) e = none := by
  rw [Function.iterate_succ_apply']
  exact storage_get_clear ops a _ e

/-- C7: over every sequence of facade operations (get, insert, remove,
mutation through get_mut, clear) started from a fresh store, the
dense-array and sparse-hash backend instantiations return exactly the same
sequence of results — so the §8 round-trip, removal, stale-generation
insert and mutation-persists behaviours coincide on the two backends. -/
theorem backend_variant_equivalence (T : Type) (a : Allocator)
    (l : List (Op T)) :
    (runOps (vecOps T) a (MaskedStorage.new (vecOps T)) l).2 =
      (runOps (hashOps T) a (MaskedStorage.new (hashOps T)) l).2 := by
  rw [(abs_run (vecOps T) (vecLaws T) a l (abs_new (vecOps T))).2,
      (abs_run (hashOps T) (hashLaws T) a l (abs_new (hashOps T))).2]

/-- C8: the flag/dummy backend holds exactly one shared default value:
`get` (and the cell addressed by `get_mut`, whose write replaces the one
shared value) is the same for every index, `insert` is a no-op, `remove`
returns a copy of the shared value, and `clean` is a no-op. -/
theorem dummy_flag_backend (T : Type) [Inhabited T] (s : DummyStorage T)
    (i j : Nat) (v : T) (f : Nat → Bool) :
    (dummyOps T).new = DummyStorage.mk default ∧
    (dummyOps T).get s i = some s.val ∧
    (dummyOps T).get s i = (dummyOps T).get s j ∧
    (dummyOps T).set s i v = DummyStorage.mk v ∧
    (dummyOps T).insert s i v = s ∧
    (dummyOps T).remove s i = (s, some s.val) ∧
    (dummyOps T).clean s f = s :=
  ⟨rfl, rfl, rfl, rfl, rfl, rfl, rfl⟩

/-- C9: inserting or removing a valid-generation identifier leaves every
other index's observable state unchanged — same presence-set membership
and the same `get` result for any identifier of that index — on both the
dense-array and sparse-hash backends. -/
theorem frame_other_indices (T : Type) (a : Allocator)
    (sv : MaskedStorage (VecStorage T) T)
    (sh : MaskedStorage (HashMapStorage T) T)
    (e : Entity) (v : T) (j g : Nat)
    ( _hg : has_gen a e = true) (hj : j ≠ e.id) :
    (((j ∈ (Storage.insert (vecOps T) a sv e v).1.mask) ↔ j ∈ sv.mask) ∧
      Storage.get (vecOps T) a (Storage.insert (vecOps T) a sv e v).1 ⟨j, g⟩ =
        Storage.get (vecOps T) a sv ⟨j, g⟩) ∧
    (((j ∈ (Storage.remove (vecOps T) a sv e).1.mask) ↔ j ∈ sv.mask) ∧
      Storage.get (vecOps T) a (Storage.remove (vecOps T) a sv e).1 ⟨j, g⟩ =
        Storage.get (vecOps T) a sv ⟨j, g⟩) ∧
    (((j ∈ (Storage.insert (hashOps T) a sh e v).1.mask) ↔ j ∈ sh.mask) ∧
      Storage.get (hashOps T) a (Storage.insert (hashOps T) a sh e v).1 ⟨j, g⟩ =
        Storage.get (hashOps T) a sh ⟨j, g⟩) ∧
    (((j ∈ (Storage.remove (hashOps T) a sh e).1.mask) ↔ j ∈ sh.mask) ∧
      Storage.get (hashOps T) a (Storage.remove (hashOps T) a sh e).1 ⟨j, g⟩ =
        Storage.get (hashOps T) a sh ⟨j, g⟩) :=
  ⟨frame_insert (vecOps T) (vecLaws T) a sv e v j g hj,
   frame_remove (vecOps T) (vecLaws T) a sv e j g hj,
   frame_insert (hashOps T) (hashLaws T) a sh e v j g hj,
   frame_remove (hashOps T) (hashLaws T) a sh e j g hj⟩

/-- Witness for C9: stores holding values at indices 0 and 1; inserting or
removing at index 0 leaves index 1 untouched. -/
theorem frame_other_indices_witness :
    has_gen Allocator.new ⟨0, 1⟩ = true ∧ (1 : Nat) ≠ (Entity.id ⟨0, 1⟩) ∧
    ((((1 : Nat) ∈ (Storage.insert (vecOps Nat) Allocator.new
          (runInserts (vecOps Nat) [(0, 10), (1, 11)]) ⟨0, 1⟩ 99).1.mask ↔
        (1 : Nat) ∈ (runInserts (vecOps Nat) [(0, 10), (1, 11)]).mask) ∧
      Storage.get (vecOps Nat) Allocator.new
          (Storage.insert (vecOps Nat) Allocator.new
            (runInserts (vecOps Nat) [(0, 10), (1, 11)]) ⟨0, 1⟩ 99).1 ⟨1, 1⟩ =
        Storage.get (vecOps Nat) Allocator.new
          (runInserts (vecOps Nat) [(0, 10), (1, 11)]) ⟨1, 1⟩) ∧
     (((1 : Nat) ∈ (Storage.remove (vecOps Nat) Allocator.new
          (runInserts (vecOps Nat) [(0, 10), (1, 11)]) ⟨0, 1⟩).1.mask ↔
        (1 : Nat) ∈ (runInserts (vecOps Nat) [(0, 10), (1, 11)]).mask) ∧
      Storage.get (vecOps Nat) Allocator.new
          (Storage.remove (vecOps Nat) Allocator.new
            (runInserts (vecOps Nat) [(0, 10), (1, 11)]) ⟨0, 1⟩).1 ⟨1, 1⟩ =
        Storage.get (vecOps Nat) Allocator.new
          (runInserts (vecOps Nat) [(0, 10), (1, 11)]) ⟨1, 1⟩) ∧
     (((1 : Nat) ∈ (Storage.insert (hashOps Nat) Allocator.new
          (runInserts (hashOps Nat) [(0, 10), (1, 11)]) ⟨0, 1⟩ 99).1.mask ↔
        (1 : Nat) ∈ (runInserts (hashOps Nat) [(0, 10), (1, 11)]).mask) ∧
      Storage.get (hashOps Nat) Allocator.new
          (Storage.insert (hashOps Nat) Allocator.new
            (runInserts (hashOps Nat) [(0, 10), (1, 11)]) ⟨0, 1⟩ 99).1 ⟨1, 1⟩ =
        Storage.get (hashOps Nat) Allocator.new
          (runInserts (hashOps Nat) [(0, 10), (1, 11)]) ⟨1, 1⟩) ∧
     (((1 : Nat) ∈ (Storage.remove (hashOps Nat) Allocator.new
          (runInserts (hashOps Nat) [(0, 10), (1, 11)]) ⟨0, 1⟩).1.mask ↔
        (1 : Nat) ∈ (runInserts (hashOps Nat) [(0, 10), (1, 11)]).mask) ∧
      Storage.get (hashOps Nat) Allocator.new
          (Storage.remove (hashOps Nat) Allocator.new
            (runInserts (hashOps Nat) [(0, 10), (1, 11)]) ⟨0, 1⟩).1 ⟨1, 1⟩ =
        Storage.get (hashOps Nat) Allocator.new
          (runInserts (hashOps Nat) [(0, 10), (1, 11)]) ⟨1, 1⟩)) :=
  ⟨by decide, by decide,
   frame_other_indices Nat Allocator.new
     (runInserts (vecOps Nat) [(0, 10), (1, 11)])
     (runInserts (hashOps Nat) [(0, 10), (1, 11)])
     ⟨0, 1⟩ 99 1 1 (by decide) (by decide)⟩

/-- C10: in a flag-backed store every index aliases the single shared
cell: after mutating through `get_mut` for one present, valid identifier,
`get` for every other present, valid identifier observes the mutated
value, and a subsequent `remove` for any present, valid identifier returns
a clone of the mutated value (not the original default). -/
theorem dummy_aliasing (T : Type) [Inhabited T] (a : Allocator)
    (s : MaskedStorage (DummyStorage T) T) (e1 e2 e3 : Entity) (v : T)
    (h1 : e1.id ∈ s.mask) (hg1 : has_gen a e1 = true)
    (h2 : e2.id ∈ s.mask) (hg2 : has_gen a e2 = true)
    (h3 : e3.id ∈ s.mask) (hg3 : has_gen a e3 = true) :
    Storage.get (dummyOps T) a (Storage.write_mut (dummyOps T) a s e1 v) e2 =
      some v ∧
    Storage.remove (dummyOps T) a (Storage.write_mut (dummyOps T) a s e1 v) e3 =
      ({ mask := s.mask.erase e3.id, inner := DummyStorage.mk v }, some v) := by
  rw [storage_write_mut_hit (dummyOps T) a s e1 v hg1 h1]
  constructor
  · unfold Storage.get
    rw [if_pos (show (⟨e2.id, e2.gen⟩ : Entity).id ∈ s.mask ∧ has_gen a e2 from
      ⟨h2, hg2⟩)]
    rfl
  · have hrm := storage_remove_valid_masked (dummyOps T) a
      { mask := s.mask, inner := (dummyOps T).set s.inner e1.id v } e3 hg3 h3
    rw [hrm]
    rfl

/-- Witness for C10: a flag-backed store with indices 0 and 1 present;
writing 9 through index 0 is observed by index 1, and removing index 1
yields 9. -/
theorem dummy_aliasing_witness :
    (Entity.id ⟨0, 1⟩ ∈ (runInserts (dummyOps Nat) [(0, 3), (1, 4)]).mask) ∧
    has_gen Allocator.new ⟨0, 1⟩ = true ∧
    (Entity.id ⟨1, 1⟩ ∈ (runInserts (dummyOps Nat) [(0, 3), (1, 4)]).mask) ∧
    has_gen Allocator.new ⟨1, 1⟩ = true ∧
    (Storage.get (dummyOps Nat) Allocator.new
        (Storage.write_mut (dummyOps Nat) Allocator.new
          (runInserts (dummyOps Nat) [(0, 3), (1, 4)]) ⟨0, 1⟩ 9) ⟨1, 1⟩ = some 9 ∧
     Storage.remove (dummyOps Nat) Allocator.new
        (Storage.write_mut (dummyOps Nat) Allocator.new
          (runInserts (dummyOps Nat) [(0, 3), (1, 4)]) ⟨0, 1⟩ 9) ⟨1, 1⟩ =
       ({ mask := (runInserts (dummyOps Nat) [(0, 3), (1, 4)]).mask.erase
            (Entity.id ⟨1, 1⟩),
          inner := DummyStorage.mk 9 }, some 9)) :=
  ⟨by decide, by decide, by decide, by decide,
   dummy_aliasing Nat Allocator.new (runInserts (dummyOps Nat) [(0, 3), (1, 4)])
     ⟨0, 1⟩ ⟨1, 1⟩ ⟨1, 1⟩ 9 (by decide) (by decide) (by decide) (by decide)
     (by decide) (by decide)⟩
